import Mathlib

set_option maxHeartbeats 1000000

/-!
Shallow embedding of `src/services/websocket.ts` (`WebSocketService`): the
connection registry `userId → (deviceId → socket)`, registration with
device-slot takeover (`setupConnection`), identity-guarded removal
(`cleanupConnection`), broadcast fan-out (`broadcast`), the per-connection
heartbeat ping interval, the diagnostic summary (`getStats`) and lifecycle
(`initialize` / `shutdown`).

JavaScript `Map`s are mutable heap objects, and `setupConnection` captures a
reference to the user's inner map (`const userConnections = ...get(userId)`)
before possibly pruning that map from the outer map; to keep this aliasing
observable, inner maps live in a heap (`maps`) addressed by numeric
references, and connection objects (`WebSocketConnection`: a socket carrying
mutable `userId` / `deviceId` / `isAlive` / `connectionId` fields plus its
ping-interval handle) live in a second heap (`heap`).  Maps are modelled as
association lists preserving JavaScript `Map` insertion order.  Side effects
on sockets (close / terminate / send / ping frames) are recorded as an
`Effect` list.
-/

namespace WS

/-- Association-list lookup, mirroring JavaScript `Map.get`. -/
def alookup {α β : Type} [DecidableEq α] (k : α) : List (α × β) → Option β
  | [] => none
  | (k', v) :: rest => if k' = k then some v else alookup k rest

/-- Association-list write, mirroring JavaScript `Map.set`: an existing key
keeps its position, a new key is appended at the end. -/
def aset {α β : Type} [DecidableEq α] (k : α) (v : β) : List (α × β) → List (α × β)
  | [] => [(k, v)]
  | (k', v') :: rest => if k' = k then (k', v) :: rest else (k', v') :: aset k v rest

/-- Association-list delete, mirroring JavaScript `Map.delete`. -/
def aerase {α β : Type} [DecidableEq α] (k : α) : List (α × β) → List (α × β)
  | [] => []
  | (k', v') :: rest => if k' = k then rest else (k', v') :: aerase k rest

/-- Transport states of the `ws` library (`WebSocket.CONNECTING` and so on). -/
def CONNECTING : Nat := 0

/-- Transport state `WebSocket.OPEN`. -/
def OPEN : Nat := 1

/-- Transport state `WebSocket.CLOSING`, entered by `ws.close(...)`. -/
def CLOSING : Nat := 2

/-- Transport state `WebSocket.CLOSED`, entered by `ws.terminate()`. -/
def CLOSED : Nat := 3

/-- One `WebSocketConnection` object: a socket together with the mutable
fields the service attaches to it (`userId`, `deviceId`, `isAlive`,
`connectionId`) and whether its `setInterval` ping loop is still scheduled
(`timerActive`; the interval handle itself in the source).  `readyState` is
the transport state of the underlying socket. -/
structure ConnObj where
  connectionId : String := ""
  userId : Option Nat := none
  deviceId : Option String := none
  isAlive : Option Bool := none
  timerActive : Bool := false
  readyState : Nat := OPEN
  deriving Repr, DecidableEq, Inhabited

/-- The static state of `WebSocketService`: `outer` is `this.connections`
(`userId → ` reference to an inner map), `maps` stores the inner
`deviceId → socket-reference` maps, `heap` stores the connection objects, and
`wssInit` records whether `this.wss` is non-null.  `nextMapRef` is the
allocator for fresh inner-map references (`new Map()`). -/
structure SysState where
  outer : List (Nat × Nat) := []
  maps : List (Nat × List (String × Nat)) := []
  heap : List (Nat × ConnObj) := []
  wssInit : Bool := false
  nextMapRef : Nat := 0
  deriving Repr, DecidableEq

/-- Socket side effects the service performs, in program order. -/
inductive Effect where
  | close (ref : Nat) (code : Nat) (reason : String)
  | terminate (ref : Nat)
  | send (ref : Nat) (payload : String)
  | ping (ref : Nat)
  deriving Repr, DecidableEq

/-- Dereference a connection object.  In the source the service always holds
the object itself, so the lookup never misses; the default is inert. -/
def getObj (s : SysState) (ref : Nat) : ConnObj :=
  (alookup ref s.heap).getD default

/-- The iteration order of the source's nested
`this.connections.forEach(... userConnections.forEach ...)` loops, as used
identically by `broadcast`, `getStats` and `shutdown`: all
`(userId, deviceId, socket)` triples, outer insertion order then inner
insertion order.  Parametrised by the inner-map heap so that lemmas can
rewrite the two components independently. -/
def blocksM (maps : List (Nat × List (String × Nat))) :
    List (Nat × Nat) → List (Nat × String × Nat)
  | [] => []
  | p :: rest =>
      ((alookup p.2 maps).getD []).map (fun q => (p.1, q.1, q.2)) ++ blocksM maps rest

/-- All registered `(userId, deviceId, socket)` triples of a state, in the
source's nested `forEach` order. -/
def registryEntries (s : SysState) : List (Nat × String × Nat) :=
  blocksM s.maps s.outer

/-- `WebSocketService.cleanupConnection(ws)`: remove `ws` from the registry
only if it is still the current occupant of its `(userId, deviceId)` slot
(`currentConnection === ws`), pruning the user's outer entry when the inner
map empties.  The JavaScript guard `if (!ws.userId || !ws.deviceId) return;`
is falsy-aware: `userId === 0` and `deviceId === ""` also bail out. -/
def cleanupConnection (s : SysState) (ref : Nat) : SysState :=
  match alookup ref s.heap with
  | none => s
  | some obj =>
    match obj.userId, obj.deviceId with
    | some u, some d =>
      if u = 0 then s
      else if d = "" then s
      else
        match alookup u s.outer with
        | none => s
        | some mr =>
          let inner := (alookup mr s.maps).getD []
          if alookup d inner = some ref then
            let inner2 := aerase d inner
            let s2 := { s with maps := aset mr inner2 s.maps }
            if inner2.isEmpty then { s2 with outer := aerase u s2.outer } else s2
          else s
    | _, _ => s

/-- The `if (!this.connections.has(userId)) this.connections.set(userId, new Map())`
step of `setupConnection`: allocate a fresh empty inner map for a new user. -/
def ensureUser (s : SysState) (u : Nat) : SysState :=
  match alookup u s.outer with
  | some _ => s
  | none =>
      { s with outer := aset u s.nextMapRef s.outer,
               maps := aset s.nextMapRef [] s.maps,
               nextMapRef := s.nextMapRef + 1 }

/-- `ws.close(...)` moves the socket's transport state to `CLOSING`. -/
def closeConn (s : SysState) (ref : Nat) : SysState :=
  match alookup ref s.heap with
  | none => s
  | some obj => { s with heap := aset ref { obj with readyState := CLOSING } s.heap }

/-- `WebSocketService.setupConnection(ws, userId, deviceId)`: set the
attached fields, ensure the user's inner map, close (status 1000, reason
"New connection established") and clean up an existing occupant of the
device slot, store the new socket into the *captured* inner-map reference,
start the ping interval, and send the initial ping.  Note that the final
`userConnections.set(deviceId, ws)` writes through the reference captured
before the takeover cleanup, even if that cleanup pruned the map from
`this.connections`. -/
def setupConnection (s : SysState) (ref : Nat) (u : Nat) (d : String) :
    SysState × List Effect :=
  let obj1 := { getObj s ref with userId := some u, deviceId := some d, isAlive := some true }
  let s1 := { s with heap := aset ref obj1 s.heap }
  let s2 := ensureUser s1 u
  let mr := (alookup u s2.outer).getD 0
  let inner := (alookup mr s2.maps).getD []
  let step3 : SysState × List Effect :=
    match alookup d inner with
    | some old =>
        (cleanupConnection (closeConn s2 old) old,
         [Effect.close old 1000 "New connection established"])
    | none => (s2, [])
  let s3 := step3.1
  let inner3 := (alookup mr s3.maps).getD []
  let s4 := { s3 with maps := aset mr (aset d ref inner3) s3.maps }
  let obj4 := { getObj s4 ref with timerActive := true }
  let s5 := { s4 with heap := aset ref obj4 s4.heap }
  (s5, step3.2 ++ [Effect.ping ref])

/-- The handshake metadata `authenticateConnection` reads from the upgrade
request URL: the `token` and `deviceId` query parameters. -/
structure Handshake where
  token : Option String := none
  deviceId : Option String := none
  deriving Repr, DecidableEq

/-- `WebSocketService.authenticateConnection`: missing token, or a token the
verifier rejects, yields `{userId: null, deviceId: null}`; on success the
decoded `userId` is returned with the requested `deviceId`.  The JavaScript
`url.searchParams.get("deviceId") || 'default'` is a falsy check, so both an
absent parameter (`null`) and a present-but-empty one (`""`) fall back to
`"default"`.  `jwt.verify` is the abstract `verify` parameter. -/
def authenticateConnection (verify : String → Option Nat) (hs : Handshake) :
    Option Nat × Option String :=
  let d := match hs.deviceId with
    | some raw => if raw = "" then "default" else raw
    | none => "default"
  match hs.token with
  | none => (none, none)
  | some t =>
    match verify t with
    | some uid => (some uid, some d)
    | none => (none, none)

/-- `WebSocketService.handleConnection(ws, req)`: assign a `connectionId`,
authenticate, and either close the socket with status 1008 and reason
"Authentication failed" or admit it via `setupConnection`.  The guard
`if (!userId || !deviceId)` is falsy-aware, so a decoded `userId === 0` or a
`deviceId === ""` is also rejected with 1008.  There is no check of
`this.wss`, so the handler runs the same way after `shutdown()`. -/
def handleConnection (s : SysState) (ref : Nat) (cid : String)
    (verify : String → Option Nat) (hs : Handshake) : SysState × List Effect :=
  let obj1 := { getObj s ref with connectionId := cid }
  let s1 := { s with heap := aset ref obj1 s.heap }
  match authenticateConnection verify hs with
  | (some u, some d) =>
      if u = 0 then (closeConn s1 ref, [Effect.close ref 1008 "Authentication failed"])
      else if d = "" then (closeConn s1 ref, [Effect.close ref 1008 "Authentication failed"])
      else setupConnection s1 ref u d
  | _ => (closeConn s1 ref, [Effect.close ref 1008 "Authentication failed"])

/-- One iteration of the `broadcast` loops for a single registered socket:
if its transport state is `OPEN`, attempt `ws.send(payload)` — on failure
(`sendFails`) clean the connection up, otherwise record the send; if it is
not `OPEN`, clean the connection up without sending. -/
def broadcastStep (payload : String) (sendFails : Nat → Bool)
    (acc : SysState × List Effect) (e : Nat × String × Nat) :
    SysState × List Effect :=
  if (getObj acc.1 e.2.2).readyState = OPEN then
    if sendFails e.2.2 then (cleanupConnection acc.1 e.2.2, acc.2)
    else (acc.1, acc.2 ++ [Effect.send e.2.2 payload])
  else (cleanupConnection acc.1 e.2.2, acc.2)

/-- `WebSocketService.broadcast(message)`: a no-op (logged) before
initialization, otherwise the nested `forEach` over the registry, sending
`JSON.stringify(message)` — the `payload` argument, identical on every
iteration since serialization is pure — to each open socket and cleaning up
closed or failing ones. -/
def broadcast (s : SysState) (payload : String) (sendFails : Nat → Bool) :
    SysState × List Effect :=
  if s.wssInit = true then (registryEntries s).foldl (broadcastStep payload sendFails) (s, [])
  else (s, [])

/-- JSON-like values, used to model the JavaScript object literals
`getStats` returns, with their observable field names. -/
inductive JVal where
  | num (n : Nat)
  | str (s : String)
  | bool (b : Bool)
  | arr (xs : List JVal)
  | obj (fields : List (String × JVal))
  deriving Repr

/-- `WebSocketService.getStats()`: the object literal
`{ users: this.connections.size, connections: [...] }` with one
`{userId, deviceId, connectionId, isAlive}` entry per registered socket.
The non-null assertions `ws.connectionId!` and `ws.isAlive!` are modelled by
defaults. -/
def getStats (s : SysState) : List (String × JVal) :=
  [("users", JVal.num s.outer.length),
   ("connections", JVal.arr ((registryEntries s).map (fun e =>
      JVal.obj [("userId", JVal.num e.1),
                ("deviceId", JVal.str e.2.1),
                ("connectionId", JVal.str (getObj s e.2.2).connectionId),
                ("isAlive", JVal.bool ((getObj s e.2.2).isAlive.getD false))])))]

/-- `WebSocketService.shutdown()`: close every registered socket with status
1000 and reason "Server shutting down", clear `this.connections`, and null
out `this.wss`. -/
def shutdown (s : SysState) : SysState × List Effect :=
  let s1 := (registryEntries s).foldl (fun st e => closeConn st e.2.2) s
  ({ s1 with outer := [], wssInit := false },
   (registryEntries s).map (fun e => Effect.close e.2.2 1000 "Server shutting down"))

/-- `WebSocketService.initialize(wss)`: if already initialized, run
`shutdown()` first, then bind the connection handler and remember `wss`. -/
def svcInit (s : SysState) : SysState × List Effect :=
  if s.wssInit = true then
    let r := shutdown s
    ({ r.1 with wssInit := true }, r.2)
  else ({ s with wssInit := true }, [])

/-- One tick of the per-connection `setInterval` ping loop: if `isAlive` is
(falsy) false, clear the interval and `ws.terminate()` — termination fires
the socket's `close` event, whose handler calls `cleanupConnection`;
otherwise set `isAlive` to false and `ws.ping()`, and if the ping throws
(`pingFails`), clear the interval and clean the connection up. -/
def heartbeatTick (s : SysState) (ref : Nat) (pingFails : Bool) :
    SysState × List Effect :=
  let obj := getObj s ref
  if obj.isAlive.getD false = false then
    let obj1 := { obj with timerActive := false, readyState := CLOSED }
    let s1 := { s with heap := aset ref obj1 s.heap }
    (cleanupConnection s1 ref, [Effect.terminate ref])
  else
    let s1 := { s with heap := aset ref { obj with isAlive := some false } s.heap }
    if pingFails then
      let obj2 := { getObj s1 ref with timerActive := false }
      let s2 := { s1 with heap := aset ref obj2 s1.heap }
      (cleanupConnection s2 ref, [])
    else (s1, [Effect.ping ref])

/-- The socket's `pong` listener installed by `setupConnection`:
`ws.isAlive = true`. -/
def pongEvent (s : SysState) (ref : Nat) : SysState :=
  { s with heap := aset ref { getObj s ref with isAlive := some true } s.heap }

/-- The socket's `close` listener installed by `setupConnection`: the
transport has moved the socket to `CLOSED`, and the handler calls
`cleanupConnection`. -/
def closeEvent (s : SysState) (ref : Nat) : SysState :=
  cleanupConnection
    { s with heap := aset ref { getObj s ref with readyState := CLOSED } s.heap } ref

/-- The socket's `error` listener installed by `setupConnection`: it calls
`cleanupConnection`. -/
def errorEvent (s : SysState) (ref : Nat) : SysState :=
  cleanupConnection s ref

/-- The guard chain of `cleanupConnection`, as a decidable test: `ws` is the
current occupant of its own `(userId, deviceId)` slot. -/
def isCurrentOccupant (s : SysState) (ref : Nat) : Bool :=
  match alookup ref s.heap with
  | none => false
  | some obj =>
    match obj.userId, obj.deviceId with
    | some u, some d =>
      if u = 0 then false
      else if d = "" then false
      else
        match alookup u s.outer with
        | none => false
        | some mr => decide (alookup d ((alookup mr s.maps).getD []) = some ref)
    | _, _ => false

/-- Whether `broadcast` keeps a registered entry: its socket's transport
state is `OPEN` (read from the heap `H`, which `broadcast` never modifies)
and the send does not fail. -/
def keepB (H : List (Nat × ConnObj)) (sendFails : Nat → Bool)
    (e : Nat × String × Nat) : Bool :=
  decide (((alookup e.2.2 H).getD default).readyState = OPEN) && !(sendFails e.2.2)

/-- Initial state of the service: empty registry, `this.wss` null. -/
def initState : SysState := {}

/-- The operations that can reach the service's state: registration
(`setupConnection`, or the full `handleConnection` pipeline), removal
(`cleanupConnection`), broadcast, shutdown, re-initialization, heartbeat
ticks, and the socket `pong` / `close` / `error` listeners. -/
inductive Op where
  | register (ref u : Nat) (d : String)
  | remove (ref : Nat)
  | bcast (payload : String) (sendFails : Nat → Bool)
  | shut
  | start
  | handle (ref : Nat) (cid : String) (verify : String → Option Nat)
      (tok dev : Option String)
  | tick (ref : Nat) (pingFails : Bool)
  | pong (ref : Nat)
  | closeEvt (ref : Nat)
  | errEvt (ref : Nat)

/-- Apply one operation to the service state. -/
def runOp (s : SysState) : Op → SysState
  | Op.register ref u d => (setupConnection s ref u d).1
  | Op.remove ref => cleanupConnection s ref
  | Op.bcast p f => (broadcast s p f).1
  | Op.shut => (shutdown s).1
  | Op.start => (svcInit s).1
  | Op.handle ref cid verify tok dev =>
      (handleConnection s ref cid verify { token := tok, deviceId := dev }).1
  | Op.tick ref pf => (heartbeatTick s ref pf).1
  | Op.pong ref => pongEvent s ref
  | Op.closeEvt ref => closeEvent s ref
  | Op.errEvt ref => errorEvent s ref

/-- Run a sequence of operations from the initial state. -/
def runOps (ops : List Op) : SysState := ops.foldl runOp initState

/-- The registry invariant maintained by every operation: every user key in
`this.connections` points to a non-empty inner device map (plus the
bookkeeping needed to make this inductive: outer keys are distinct, the
referenced inner maps are distinct, and all referenced inner maps were
allocated below `nextMapRef`). -/
structure RegInv (s : SysState) : Prop where
  nonempty : ∀ p ∈ s.outer, (alookup p.2 s.maps).getD [] ≠ []
  keys_nodup : (s.outer.map Prod.fst).Nodup
  snd_nodup : (s.outer.map Prod.snd).Nodup
  snd_lt : ∀ p ∈ s.outer, p.2 < s.nextMapRef

/-- Structural well-formedness of a registry state, satisfied by every
reachable state: distinct user keys, distinct inner-map references, distinct
device keys per inner map, every registered socket's attached
`userId` / `deviceId` fields agree with the slot holding it (and pass the
falsy guard of `cleanupConnection`), and distinct `(userId, deviceId)`
slots among the registered entries. -/
abbrev StateWF (s : SysState) : Prop :=
  (s.outer.map Prod.fst).Nodup ∧
  (s.outer.map Prod.snd).Nodup ∧
  (∀ p ∈ s.maps, (p.2.map Prod.fst).Nodup) ∧
  (∀ e ∈ registryEntries s, (getObj s e.2.2).userId = some e.1 ∧
      (getObj s e.2.2).deviceId = some e.2.1 ∧ e.1 ≠ 0 ∧ e.2.1 ≠ "") ∧
  ((registryEntries s).map (fun e => (e.1, e.2.1))).Nodup

/-! ### Concrete states used by witnesses and counterexamples -/

/-- Two fresh accepted sockets, service initialized, registry empty. -/
def cs1 : SysState :=
  { heap := [(1, { connectionId := "a" }), (2, { connectionId := "b" })],
    wssInit := true }

/-- Socket 2 occupies slot `(7, "phone")`; socket 1's attached fields still
name that slot (it was superseded), so it is a stale reference. -/
def cs3 : SysState :=
  { outer := [(7, 0)],
    maps := [(0, [("phone", 2)])],
    heap := [(1, { connectionId := "a", userId := some 7, deviceId := some "phone",
                   isAlive := some true, timerActive := true }),
             (2, { connectionId := "b", userId := some 7, deviceId := some "phone",
                   isAlive := some true, timerActive := true })],
    wssInit := true, nextMapRef := 1 }

/-- Three registered sockets: 1 open and deliverable, 2 open but failing on
send, 3 already closed. -/
def cs4 : SysState :=
  { outer := [(7, 0), (8, 1)],
    maps := [(0, [("a", 1), ("b", 2)]), (1, [("c", 3)])],
    heap := [(1, { connectionId := "k1", userId := some 7, deviceId := some "a",
                   isAlive := some true, timerActive := true }),
             (2, { connectionId := "k2", userId := some 7, deviceId := some "b",
                   isAlive := some true, timerActive := true }),
             (3, { connectionId := "k3", userId := some 8, deviceId := some "c",
                   isAlive := some true, timerActive := true, readyState := CLOSED })],
    wssInit := true, nextMapRef := 2 }

/-- One registered socket that has not answered the last ping
(`isAlive = false`). -/
def cs5 : SysState :=
  { outer := [(7, 0)],
    maps := [(0, [("phone", 1)])],
    heap := [(1, { connectionId := "a", userId := some 7, deviceId := some "phone",
                   isAlive := some false, timerActive := true })],
    wssInit := true, nextMapRef := 1 }

/-- One registered, live, open socket with its ping interval scheduled. -/
def cs6 : SysState :=
  { outer := [(7, 0)],
    maps := [(0, [("phone", 1)])],
    heap := [(1, { connectionId := "a", userId := some 7, deviceId := some "phone",
                   isAlive := some true, timerActive := true })],
    wssInit := true, nextMapRef := 1 }

/-- The state of `cs6` after a broadcast in which the send to socket 1
failed: the socket has been evicted from the registry. -/
def cs6evicted : SysState := (broadcast cs6 "m" (fun r => r == 1)).1

/-- One registered socket on an initialized service, plus a second fresh
socket (ref 2) that will arrive after shutdown. -/
def cs8 : SysState :=
  { outer := [(7, 0)],
    maps := [(0, [("phone", 1)])],
    heap := [(1, { connectionId := "a", userId := some 7, deviceId := some "phone",
                   isAlive := some true, timerActive := true }),
             (2, { connectionId := "b" })],
    wssInit := true, nextMapRef := 1 }

/-- Token verifier accepting exactly `"tok"` for user 7. -/
def verifyTok : String → Option Nat := fun t => if t = "tok" then some 7 else none

/-- A fresh socket on an initialized service, for the authentication-failure
scenarios. -/
def cs9 : SysState :=
  { heap := [(1, { connectionId := "a" })], wssInit := true }

/-- One registered socket, for inspecting the shape of `getStats`. -/
def cs10 : SysState :=
  { outer := [(7, 0)],
    maps := [(0, [("phone", 1)])],
    heap := [(1, { connectionId := "a", userId := some 7, deviceId := some "phone",
                   isAlive := some true, timerActive := true })],
    wssInit := true, nextMapRef := 1 }

/-! ### Association-list lemmas -/

theorem alookup_aset_self {α β : Type} [DecidableEq α] (k : α) (v : β)
    (l : List (α × β)) : alookup k (aset k v l) = some v := by
  induction l with
  | nil => simp [aset, alookup]
  | cons p rest ih =>
      obtain ⟨k', v'⟩ := p
      by_cases h : k' = k
      · simp [aset, alookup, h]
      · simp [aset, alookup, h, ih]

theorem alookup_aset_ne {α β : Type} [DecidableEq α] {k k' : α} (v : β)
    (l : List (α × β)) (h : k ≠ k') : alookup k (aset k' v l) = alookup k l := by
  induction l with
  | nil =>
      simp only [aset, alookup]
      rw [if_neg (fun hh => h (Eq.symm hh))]
  | cons p rest ih =>
      obtain ⟨a, b⟩ := p
      by_cases ha : a = k'
      · subst ha
        have hk : ¬a = k := fun hh => h (Eq.symm hh)
        simp [aset, alookup, hk]
      · simp only [aset, if_neg ha]
        by_cases hk : a = k
        · simp [alookup, hk]
        · simp [alookup, hk, ih]

theorem aset_absent {α β : Type} [DecidableEq α] {k : α} (v : β)
    {l : List (α × β)} (h : alookup k l = none) : aset k v l = l ++ [(k, v)] := by
  induction l with
  | nil => simp [aset]
  | cons p rest ih =>
      obtain ⟨a, b⟩ := p
      by_cases ha : a = k
      · simp [alookup, ha] at h
      · simp [alookup, ha] at h
        simp [aset, ha, ih h]

theorem alookup_append_none {α β : Type} [DecidableEq α] {k : α}
    {l : List (α × β)} (l' : List (α × β)) (h : alookup k l = none) :
    alookup k (l ++ l') = alookup k l' := by
  induction l with
  | nil => simp
  | cons p rest ih =>
      obtain ⟨a, b⟩ := p
      by_cases ha : a = k
      · simp [alookup, ha] at h
      · simp [alookup, ha] at h
        simpa [alookup, ha] using ih h

theorem alookup_mem {α β : Type} [DecidableEq α] {k : α} {v : β}
    {l : List (α × β)} (h : alookup k l = some v) : (k, v) ∈ l := by
  induction l with
  | nil => simp [alookup] at h
  | cons p rest ih =>
      obtain ⟨a, b⟩ := p
      by_cases ha : a = k
      · subst ha
        simp [alookup] at h
        simp [h]
      · simp [alookup, ha] at h
        exact List.mem_cons_of_mem _ (ih h)

theorem alookup_none_notMem {α β : Type} [DecidableEq α] {k : α}
    {l : List (α × β)} (h : alookup k l = none) : k ∉ l.map Prod.fst := by
  induction l with
  | nil => simp
  | cons p rest ih =>
      obtain ⟨a, b⟩ := p
      by_cases ha : a = k
      · simp [alookup, ha] at h
      · simp only [alookup, if_neg ha] at h
        simp only [List.map_cons, List.mem_cons]
        push_neg
        exact ⟨fun hh => ha (Eq.symm hh), ih h⟩

theorem alookup_split {α β : Type} [DecidableEq α] {k : α} {v : β}
    {l : List (α × β)} (h : alookup k l = some v) :
    ∃ P Q, l = P ++ (k, v) :: Q ∧ k ∉ P.map Prod.fst := by
  induction l with
  | nil => simp [alookup] at h
  | cons p rest ih =>
      obtain ⟨a, b⟩ := p
      by_cases ha : a = k
      · subst ha
        simp [alookup] at h
        exact ⟨[], rest, by simp [h], by simp⟩
      · simp only [alookup, if_neg ha] at h
        obtain ⟨P, Q, hl, hk⟩ := ih h
        refine ⟨(a, b) :: P, Q, by simp [hl], ?_⟩
        simp only [List.map_cons, List.mem_cons]
        push_neg
        exact ⟨fun hh => ha (Eq.symm hh), hk⟩

theorem alookup_of_mem_nodup {α β : Type} [DecidableEq α] {k : α} {v : β}
    {l : List (α × β)} (hm : (k, v) ∈ l) (hn : (l.map Prod.fst).Nodup) :
    alookup k l = some v := by
  induction l with
  | nil => simp at hm
  | cons p rest ih =>
      obtain ⟨a, b⟩ := p
      simp only [List.map_cons, List.nodup_cons] at hn
      rcases List.mem_cons.1 hm with h | h
      · injection h with h1 h2
        subst h1
        subst h2
        simp [alookup]
      · have ha : a ≠ k := by
          intro hak
          subst hak
          exact hn.1 (List.mem_map.2 ⟨(a, v), h, rfl⟩)
        simp only [alookup, if_neg ha]
        exact ih h hn.2

theorem aerase_sublist {α β : Type} [DecidableEq α] (k : α) (l : List (α × β)) :
    List.Sublist (aerase k l) l := by
  induction l with
  | nil =>
      simp only [aerase]
      exact List.Sublist.refl []
  | cons p rest ih =>
      obtain ⟨a, b⟩ := p
      by_cases ha : a = k
      · simp only [aerase, if_pos ha]
        exact List.sublist_cons_self _ _
      · simp only [aerase, if_neg ha]
        exact List.Sublist.cons₂ _ ih

theorem mem_aerase {α β : Type} [DecidableEq α] {k : α} {p : α × β}
    {l : List (α × β)} (h : p ∈ aerase k l) : p ∈ l :=
  (aerase_sublist k l).mem h

theorem aerase_append {α β : Type} [DecidableEq α] {k : α} (v : β)
    {P : List (α × β)} (Q : List (α × β)) (h : k ∉ P.map Prod.fst) :
    aerase k (P ++ (k, v) :: Q) = P ++ Q := by
  induction P with
  | nil => simp [aerase]
  | cons p rest ih =>
      obtain ⟨a, b⟩ := p
      simp only [List.map_cons, List.mem_cons] at h
      push_neg at h
      have ha : ¬a = k := fun hh => h.1 (Eq.symm hh)
      simp [aerase, ha, ih h.2]

theorem aset_ne_nil {α β : Type} [DecidableEq α] (k : α) (v : β)
    (l : List (α × β)) : aset k v l ≠ [] := by
  cases l with
  | nil => simp [aset]
  | cons p rest =>
      obtain ⟨a, b⟩ := p
      by_cases ha : a = k <;> simp [aset, ha]

theorem mem_aset {α β : Type} [DecidableEq α] {k : α} {v : β} {p : α × β}
    {l : List (α × β)} (h : p ∈ aset k v l) : p = (k, v) ∨ p ∈ l := by
  induction l with
  | nil => simpa [aset] using h
  | cons q rest ih =>
      obtain ⟨a, b⟩ := q
      by_cases ha : a = k
      · subst ha
        simp [aset] at h
        rcases h with h | h
        · exact Or.inl (by simp [h])
        · exact Or.inr (List.mem_cons_of_mem _ h)
      · simp [aset, ha] at h
        rcases h with h | h
        · exact Or.inr (by simp [h])
        · rcases ih h with h' | h'
          · exact Or.inl h'
          · exact Or.inr (List.mem_cons_of_mem _ h')

theorem aerase_eq_filter {α β : Type} [DecidableEq α] (k : α)
    {l : List (α × β)} (hn : (l.map Prod.fst).Nodup) :
    aerase k l = l.filter (fun q => !decide (q.1 = k)) := by
  induction l with
  | nil => simp [aerase]
  | cons p rest ih =>
      obtain ⟨a, b⟩ := p
      simp only [List.map_cons, List.nodup_cons] at hn
      by_cases ha : a = k
      · subst ha
        have hall : ∀ q ∈ rest, (fun q : α × β => !decide (q.1 = a)) q = true := by
          intro q hq
          simp only [Bool.not_eq_true', decide_eq_false_iff_not]
          intro hqa
          exact hn.1 (List.mem_map.2 ⟨q, hq, hqa⟩)
        have h1 : aerase a ((a, b) :: rest) = rest := by simp [aerase]
        have h2 : List.filter (fun q : α × β => !decide (q.1 = a)) ((a, b) :: rest)
            = List.filter (fun q : α × β => !decide (q.1 = a)) rest := by
          rw [List.filter_cons]
          simp
        rw [h1, h2]
        exact (List.filter_eq_self.2 hall).symm
      · simp only [aerase, if_neg ha, List.filter_cons]
        rw [if_pos (by simp [ha])]
        rw [ih hn.2]

theorem filter_map_comm {α β : Type} (p : β → Bool) (f : α → β) (l : List α) :
    (l.map f).filter p = (l.filter (fun x => p (f x))).map f := by
  induction l with
  | nil => simp
  | cons x rest ih =>
      by_cases h : p (f x) = true
      · simp [h, ih]
      · simp only [Bool.not_eq_true] at h
        simp [h, ih]

/-! ### Registry-iteration lemmas -/

theorem blocksM_append (m : List (Nat × List (String × Nat)))
    (P Q : List (Nat × Nat)) :
    blocksM m (P ++ Q) = blocksM m P ++ blocksM m Q := by
  induction P with
  | nil => simp [blocksM]
  | cons p rest ih => simp [blocksM, ih]

theorem blocksM_congr {m m' : List (Nat × List (String × Nat))}
    {l : List (Nat × Nat)} (h : ∀ p ∈ l, alookup p.2 m' = alookup p.2 m) :
    blocksM m' l = blocksM m l := by
  induction l with
  | nil => simp [blocksM]
  | cons p rest ih =>
      simp only [blocksM]
      rw [h p (List.mem_cons_self _ _), ih (fun q hq => h q (List.mem_cons_of_mem _ hq))]

theorem mem_blocksM {m : List (Nat × List (String × Nat))}
    {l : List (Nat × Nat)} {e : Nat × String × Nat} (h : e ∈ blocksM m l) :
    ∃ p ∈ l, ∃ q ∈ (alookup p.2 m).getD [], e = (p.1, q.1, q.2) := by
  induction l with
  | nil => simp [blocksM] at h
  | cons p rest ih =>
      simp only [blocksM, List.mem_append] at h
      rcases h with h | h
      · obtain ⟨q, hq, he⟩ := List.mem_map.1 h
        exact ⟨p, List.mem_cons_self _ _, q, hq, he.symm⟩
      · obtain ⟨p', hp', q, hq, he⟩ := ih h
        exact ⟨p', List.mem_cons_of_mem _ hp', q, hq, he⟩

theorem registryEntries_congr {s s' : SysState} (ho : s'.outer = s.outer)
    (hm : s'.maps = s.maps) : registryEntries s' = registryEntries s := by
  simp [registryEntries, ho, hm]

theorem blocksM_mem_of {m : List (Nat × List (String × Nat))}
    {l : List (Nat × Nat)} {p : Nat × Nat} (hp : p ∈ l) {q : String × Nat}
    (hq : q ∈ (alookup p.2 m).getD []) : (p.1, q.1, q.2) ∈ blocksM m l := by
  induction l with
  | nil => simp at hp
  | cons r rest ih =>
      rcases List.mem_cons.1 hp with h | h
      · subst h
        exact List.mem_append.2 (Or.inl (List.mem_map.2 ⟨q, hq, rfl⟩))
      · exact List.mem_append.2 (Or.inr (ih h))

/-! ### Basic facts about `cleanupConnection` -/

theorem cleanupConnection_heap (s : SysState) (ref : Nat) :
    (cleanupConnection s ref).heap = s.heap := by
  unfold cleanupConnection
  dsimp only []
  repeat' split
  all_goals rfl

theorem cleanupConnection_wssInit (s : SysState) (ref : Nat) :
    (cleanupConnection s ref).wssInit = s.wssInit := by
  unfold cleanupConnection
  dsimp only []
  repeat' split
  all_goals rfl

theorem cleanupConnection_nextMapRef (s : SysState) (ref : Nat) :
    (cleanupConnection s ref).nextMapRef = s.nextMapRef := by
  unfold cleanupConnection
  dsimp only []
  repeat' split
  all_goals rfl

theorem getObj_heap_congr {s s' : SysState} (h : s'.heap = s.heap) (ref : Nat) :
    getObj s' ref = getObj s ref := by
  simp [getObj, h]

/-! ### Claim C1 -/

/-- Claim C1 is a code bug.  Registering a second Connection for the
occupied slot `(7, "phone")` does close the first with status 1000 and
reason "New connection established", but because the first was the user's
only device, `cleanupConnection` empties the inner map and prunes user 7's
outer entry, and `setupConnection` then stores the new socket through the
inner-map reference it captured *before* the takeover — a map no longer
reachable from `this.connections`.  Afterwards the registry iteration is
empty and `getStats` reports zero users, instead of reporting exactly the
second Connection as the claim (and the spec) state. -/
theorem c1_takeover_code_bug :
    (setupConnection (setupConnection cs1 1 7 "phone").1 2 7 "phone").2
      = [Effect.close 1 1000 "New connection established", Effect.ping 2]
    ∧ registryEntries (setupConnection (setupConnection cs1 1 7 "phone").1 2 7 "phone").1 = []
    ∧ (setupConnection (setupConnection cs1 1 7 "phone").1 2 7 "phone").1.outer = []
    ∧ alookup "users"
        (getStats (setupConnection (setupConnection cs1 1 7 "phone").1 2 7 "phone").1)
      = some (JVal.num 0) :=
  ⟨by decide, by decide, by decide, rfl⟩

/-! ### Claim C3 -/

/-- Claim C3: `cleanupConnection` called with a Connection that is not the
current occupant of its `(userId, deviceId)` slot — occupancy being decided
by object identity, not by the key — leaves the registry state completely
unchanged. -/
theorem c3_stale_remove_noop (s : SysState) (ref : Nat)
    (h : isCurrentOccupant s ref = false) : cleanupConnection s ref = s := by
  unfold isCurrentOccupant at h
  unfold cleanupConnection
  split
  · rfl
  · rename_i obj heq
    rw [heq] at h
    dsimp only [] at h ⊢
    split at h
    · rename_i u d hu hd
      by_cases h0 : u = 0
      · simp [h0]
      · rw [if_neg h0] at h
        by_cases hde : d = ""
        · simp [h0, hde]
        · rw [if_neg hde] at h
          rw [if_neg h0, if_neg hde]
          split at h
          · rfl
          · simp only [decide_eq_false_iff_not] at h
            simp [h]
    · rfl

/-- Witness for C3: socket 1 is a stale reference to slot `(7, "phone")`now
occupied by socket 2, and removing it changes nothing. -/
theorem c3_stale_remove_noop_witness :
    isCurrentOccupant cs3 1 = false ∧ cleanupConnection cs3 1 = cs3 :=
  ⟨by decide, c3_stale_remove_noop cs3 1 (by decide)⟩

/-! ### Claim C7 -/

/-- Claim C7: `shutdown()` closes every registered socket with status 1000
and reason "Server shutting down"; afterwards `getStats` reports zero users
and an empty connections array, any subsequent `broadcast` delivers nothing,
raises nothing and returns the registry unchanged, and calling `shutdown`
again is a safe no-op. -/
theorem c7_shutdown (s : SysState) :
    (shutdown s).2
      = (registryEntries s).map (fun e => Effect.close e.2.2 1000 "Server shutting down")
    ∧ getStats (shutdown s).1 = [("users", JVal.num 0), ("connections", JVal.arr [])]
    ∧ (∀ payload sendFails, broadcast (shutdown s).1 payload sendFails = ((shutdown s).1, []))
    ∧ shutdown (shutdown s).1 = ((shutdown s).1, []) :=
  ⟨rfl, rfl, fun _ _ => rfl, rfl⟩

/-! ### Facts about `closeConn`, `getObj` and the heartbeat tick -/

theorem closeConn_outer (s : SysState) (ref : Nat) :
    (closeConn s ref).outer = s.outer := by
  unfold closeConn
  split <;> rfl

theorem closeConn_maps (s : SysState) (ref : Nat) :
    (closeConn s ref).maps = s.maps := by
  unfold closeConn
  split <;> rfl

theorem getObj_aset_self (s : SysState) (ref : Nat) (obj : ConnObj) :
    getObj { s with heap := aset ref obj s.heap } ref = obj := by
  simp [getObj, alookup_aset_self]

theorem closeConn_timerActive (s : SysState) (x ref : Nat) :
    (getObj (closeConn s x) ref).timerActive = (getObj s ref).timerActive := by
  unfold closeConn
  cases h : alookup x s.heap with
  | none => rfl
  | some obj =>
      by_cases hx : ref = x
      · subst hx
        rw [getObj_aset_self]
        simp [getObj, h]
      · have : getObj { s with heap := aset x { obj with readyState := CLOSING } s.heap } ref
            = getObj s ref := by
          simp [getObj, alookup_aset_ne _ _ hx]
        rw [this]

theorem foldl_closeConn_timerActive (l : List (Nat × String × Nat))
    (s : SysState) (ref : Nat) :
    (getObj (l.foldl (fun st e => closeConn st e.2.2) s) ref).timerActive
      = (getObj s ref).timerActive := by
  induction l generalizing s with
  | nil => rfl
  | cons e rest ih => rw [List.foldl_cons, ih, closeConn_timerActive]

theorem heartbeatTick_obj (s : SysState) (ref : Nat) (pf : Bool) :
    (getObj (heartbeatTick s ref pf).1 ref).isAlive.getD false = false := by
  unfold heartbeatTick
  dsimp only []
  by_cases hA : (getObj s ref).isAlive.getD false = false
  · rw [if_pos hA]
    try dsimp only []
    rw [getObj_heap_congr (cleanupConnection_heap _ _)]
    simpa [getObj, alookup_aset_self] using hA
  · rw [if_neg hA]
    try dsimp only []
    by_cases hp : pf = true
    · rw [if_pos hp]
      try dsimp only []
      rw [getObj_heap_congr (cleanupConnection_heap _ _)]
      simp [getObj, alookup_aset_self]
    · rw [if_neg hp]
      try dsimp only []
      simp [getObj, alookup_aset_self]

theorem heartbeatTick_clears (s : SysState) (ref : Nat) (pf : Bool)
    (h : (getObj s ref).isAlive.getD false = false) :
    (getObj (heartbeatTick s ref pf).1 ref).timerActive = false := by
  unfold heartbeatTick
  dsimp only []
  rw [if_pos h]
  try dsimp only []
  rw [getObj_heap_congr (cleanupConnection_heap _ _)]
  simp [getObj, alookup_aset_self]

theorem setup_on_empty_outer (t : SysState) (ref u : Nat) (d : String)
    (h : t.outer = []) :
    registryEntries (setupConnection t ref u d).1 = [(u, d, ref)] := by
  obtain ⟨o, m, hp, w, n⟩ := t
  simp only at h
  subst h
  simp [setupConnection, ensureUser, alookup, aset, registryEntries, blocksM,
        alookup_aset_self, getObj]

/-! ### Preservation of the registry invariant -/

theorem nodup_append_singleton {α : Type} {l : List α} {a : α}
    (hn : l.Nodup) (ha : a ∉ l) : (l ++ [a]).Nodup := by
  rw [show l ++ [a] = l ++ a :: [] from rfl, List.nodup_middle]
  simp [List.nodup_cons, ha, hn]

theorem regInv_of_parts {s s' : SysState} (h : RegInv s) (ho : s'.outer = s.outer)
    (hm : s'.maps = s.maps) (hn : s'.nextMapRef = s.nextMapRef) : RegInv s' := by
  constructor
  · rw [ho, hm]
    exact h.nonempty
  · rw [ho]
    exact h.keys_nodup
  · rw [ho]
    exact h.snd_nodup
  · rw [ho, hn]
    exact h.snd_lt

theorem closeConn_nextMapRef (s : SysState) (ref : Nat) :
    (closeConn s ref).nextMapRef = s.nextMapRef := by
  unfold closeConn
  split <;> rfl

theorem regInv_closeConn (s : SysState) (ref : Nat) (h : RegInv s) :
    RegInv (closeConn s ref) :=
  regInv_of_parts h (closeConn_outer s ref) (closeConn_maps s ref)
    (closeConn_nextMapRef s ref)

theorem regInv_aset_maps (t : SysState) (mr : Nat) (K : List (String × Nat))
    (hK : K ≠ []) (h : RegInv t) : RegInv { t with maps := aset mr K t.maps } := by
  constructor
  · intro p hp
    by_cases hpm : p.2 = mr
    · rw [hpm]
      show (alookup mr (aset mr K t.maps)).getD [] ≠ []
      rw [alookup_aset_self]
      exact hK
    · show (alookup p.2 (aset mr K t.maps)).getD [] ≠ []
      rw [alookup_aset_ne _ _ hpm]
      exact h.nonempty p hp
  · exact h.keys_nodup
  · exact h.snd_nodup
  · exact h.snd_lt

theorem regInv_cleanup (s : SysState) (ref : Nat) (h : RegInv s) :
    RegInv (cleanupConnection s ref) := by
  unfold cleanupConnection
  split
  · exact h
  · rename_i obj heq
    dsimp only []
    split
    · rename_i u d hu hd
      by_cases h0 : u = 0
      · rw [if_pos h0]
        exact h
      · rw [if_neg h0]
        by_cases hde : d = ""
        · rw [if_pos hde]
          exact h
        · rw [if_neg hde]
          split
          · exact h
          · rename_i mr houter
            try dsimp only []
            by_cases hhit : alookup d ((alookup mr s.maps).getD []) = some ref
            · rw [if_pos hhit]
              try dsimp only []
              obtain ⟨P, Q, hPQ, hkP⟩ := alookup_split houter
              have hmidSnd : (s.outer.map Prod.snd).Nodup := h.snd_nodup
              rw [hPQ] at hmidSnd
              rw [List.map_append, List.map_cons] at hmidSnd
              rw [List.nodup_middle] at hmidSnd
              have hmrNot : mr ∉ P.map Prod.snd ++ Q.map Prod.snd :=
                (List.nodup_cons.1 hmidSnd).1
              by_cases hemp : (aerase d ((alookup mr s.maps).getD [])).isEmpty
              · rw [if_pos hemp]
                have houter2 : aerase u s.outer = P ++ Q := by
                  rw [hPQ]
                  exact aerase_append mr Q hkP
                constructor
                · intro p hp
                  rw [houter2] at hp
                  have hpse : p ∈ s.outer := by
                    rw [hPQ]
                    rcases List.mem_append.1 hp with h' | h'
                    · exact List.mem_append.2 (Or.inl h')
                    · exact List.mem_append.2 (Or.inr (List.mem_cons_of_mem _ h'))
                  have hpm : p.2 ≠ mr := by
                    intro hpm
                    apply hmrNot
                    rcases List.mem_append.1 hp with h' | h'
                    · exact List.mem_append.2 (Or.inl (List.mem_map.2 ⟨p, h', hpm⟩))
                    · exact List.mem_append.2 (Or.inr (List.mem_map.2 ⟨p, h', hpm⟩))
                  show (alookup p.2 (aset mr _ s.maps)).getD [] ≠ []
                  rw [alookup_aset_ne _ _ hpm]
                  exact h.nonempty p hpse
                · have hsub : List.Sublist (aerase u s.outer) s.outer :=
                    aerase_sublist u s.outer
                  exact ((hsub.map Prod.fst).nodup h.keys_nodup)
                · have hsub : List.Sublist (aerase u s.outer) s.outer :=
                    aerase_sublist u s.outer
                  exact ((hsub.map Prod.snd).nodup h.snd_nodup)
                · intro p hp
                  exact h.snd_lt p ((aerase_sublist u s.outer).mem hp)
              · rw [if_neg hemp]
                have hne : aerase d ((alookup mr s.maps).getD []) ≠ [] := by
                  intro hnil
                  rw [hnil] at hemp
                  exact hemp rfl
                exact regInv_aset_maps s mr _ hne h
            · rw [if_neg hhit]
              exact h
    · exact h

theorem regInv_setup_shape (o : List (Nat × Nat))
    (m : List (Nat × List (String × Nat))) (hp : List (Nat × ConnObj)) (w : Bool)
    (n mr : Nat) (K : List (String × Nat)) (ref : Nat) (obj : ConnObj)
    (hK : K ≠ []) (h : RegInv (SysState.mk o m hp w n)) :
    RegInv (SysState.mk o (aset mr K m) (aset ref obj hp) w n) :=
  regInv_of_parts (regInv_aset_maps (SysState.mk o m hp w n) mr K hK h) rfl rfl rfl

theorem regInv_setup (s : SysState) (ref u : Nat) (d : String) (h : RegInv s) :
    RegInv (setupConnection s ref u d).1 := by
  unfold setupConnection ensureUser
  dsimp only []
  cases hU : alookup u s.outer with
  | some mr0 =>
      try dsimp only []
      try rw [hU]
      simp only [Option.getD_some]
      cases hE : alookup d ((alookup mr0 s.maps).getD []) with
      | some old =>
          try dsimp only []
          refine regInv_setup_shape _ _ _ _ _ _ _ _ _ (aset_ne_nil _ _ _) ?_
          refine regInv_cleanup _ old ?_
          refine regInv_closeConn _ old ?_
          exact regInv_of_parts h rfl rfl rfl
      | none =>
          try dsimp only []
          refine regInv_setup_shape _ _ _ _ _ _ _ _ _ (aset_ne_nil _ _ _) ?_
          exact regInv_of_parts h rfl rfl rfl
  | none =>
      try dsimp only []
      rw [aset_absent _ hU, alookup_append_none _ hU]
      simp only [alookup, eq_self_iff_true, if_true, Option.getD_some, alookup_aset_self]
      try dsimp only []
      try simp only [alookup, Option.getD_some, alookup_aset_self]
      try dsimp only []
      try simp only [alookup, Option.getD_some, alookup_aset_self]
      try simp only [aset]
      have hnotfst : u ∉ s.outer.map Prod.fst := alookup_none_notMem hU
      have hnotsnd : s.nextMapRef ∉ s.outer.map Prod.snd := by
        intro hmem
        obtain ⟨p, hp, hp2⟩ := List.mem_map.1 hmem
        exact absurd (hp2 ▸ h.snd_lt p hp) (lt_irrefl _)
      constructor
      · intro p hp
        rcases List.mem_append.1 hp with h' | h'
        · have hpm : p.2 ≠ s.nextMapRef := by
            intro hpm
            exact hnotsnd (List.mem_map.2 ⟨p, h', hpm⟩)
          show (alookup p.2 (aset s.nextMapRef _ (aset s.nextMapRef [] s.maps))).getD [] ≠ []
          rw [alookup_aset_ne _ _ hpm, alookup_aset_ne _ _ hpm]
          exact h.nonempty p h'
        · have hp' : p = (u, s.nextMapRef) := by simpa using h'
          rw [hp']
          show (alookup s.nextMapRef (aset s.nextMapRef _ (aset s.nextMapRef [] s.maps))).getD [] ≠ []
          rw [alookup_aset_self]
          simp
      · rw [List.map_append]
        exact nodup_append_singleton h.keys_nodup hnotfst
      · rw [List.map_append]
        exact nodup_append_singleton h.snd_nodup hnotsnd
      · intro p hp
        rcases List.mem_append.1 hp with h' | h'
        · exact Nat.lt_trans (h.snd_lt p h') (Nat.lt_succ_self _)
        · have hp' : p = (u, s.nextMapRef) := by simpa using h'
          rw [hp']
          exact Nat.lt_succ_self _

theorem shutdown_outer (s : SysState) : (shutdown s).1.outer = [] := rfl

theorem regInv_shutdown (s : SysState) : RegInv (shutdown s).1 := by
  constructor
  · intro p hp
    rw [shutdown_outer] at hp
    simp at hp
  · rw [shutdown_outer]
    simp
  · rw [shutdown_outer]
    simp
  · intro p hp
    rw [shutdown_outer] at hp
    simp at hp

theorem regInv_svcInit (s : SysState) (h : RegInv s) : RegInv (svcInit s).1 := by
  unfold svcInit
  split
  · exact regInv_of_parts (regInv_shutdown s) rfl rfl rfl
  · exact regInv_of_parts h rfl rfl rfl

theorem regInv_broadcastFold (payload : String) (f : Nat → Bool)
    (l : List (Nat × String × Nat)) :
    ∀ acc : SysState × List Effect, RegInv acc.1 →
      RegInv ((l.foldl (broadcastStep payload f) acc).1) := by
  induction l with
  | nil =>
      intro acc h
      exact h
  | cons e rest ih =>
      intro acc h
      rw [List.foldl_cons]
      apply ih
      unfold broadcastStep
      split
      · split
        · exact regInv_cleanup _ _ h
        · exact h
      · exact regInv_cleanup _ _ h

theorem regInv_broadcast (s : SysState) (p : String) (f : Nat → Bool)
    (h : RegInv s) : RegInv (broadcast s p f).1 := by
  unfold broadcast
  split
  · exact regInv_broadcastFold p f _ (s, []) h
  · exact h

theorem regInv_handle (s : SysState) (ref : Nat) (cid : String)
    (verify : String → Option Nat) (hs : Handshake) (h : RegInv s) :
    RegInv (handleConnection s ref cid verify hs).1 := by
  unfold handleConnection
  dsimp only []
  cases hA : authenticateConnection verify hs with
  | mk a b =>
      cases a with
      | some u =>
          cases b with
          | some d =>
              try dsimp only []
              by_cases h0 : u = 0
              · rw [if_pos h0]
                exact regInv_closeConn _ ref (regInv_of_parts h rfl rfl rfl)
              · rw [if_neg h0]
                by_cases hde : d = ""
                · rw [if_pos hde]
                  exact regInv_closeConn _ ref (regInv_of_parts h rfl rfl rfl)
                · rw [if_neg hde]
                  exact regInv_setup _ ref u d (regInv_of_parts h rfl rfl rfl)
          | none =>
              try dsimp only []
              exact regInv_closeConn _ ref (regInv_of_parts h rfl rfl rfl)
      | none =>
          cases b with
          | some d =>
              try dsimp only []
              exact regInv_closeConn _ ref (regInv_of_parts h rfl rfl rfl)
          | none =>
              try dsimp only []
              exact regInv_closeConn _ ref (regInv_of_parts h rfl rfl rfl)

theorem regInv_tick (s : SysState) (ref : Nat) (pf : Bool) (h : RegInv s) :
    RegInv (heartbeatTick s ref pf).1 := by
  unfold heartbeatTick
  dsimp only []
  split
  · exact regInv_cleanup _ ref (regInv_of_parts h rfl rfl rfl)
  · split
    · exact regInv_cleanup _ ref (regInv_of_parts h rfl rfl rfl)
    · exact regInv_of_parts h rfl rfl rfl

theorem regInv_pong (s : SysState) (ref : Nat) (h : RegInv s) :
    RegInv (pongEvent s ref) :=
  regInv_of_parts h rfl rfl rfl

theorem regInv_closeEvt (s : SysState) (ref : Nat) (h : RegInv s) :
    RegInv (closeEvent s ref) :=
  regInv_cleanup _ ref (regInv_of_parts h rfl rfl rfl)

theorem regInv_errEvt (s : SysState) (ref : Nat) (h : RegInv s) :
    RegInv (errorEvent s ref) :=
  regInv_cleanup s ref h

theorem regInv_runOp (s : SysState) (op : Op) (h : RegInv s) :
    RegInv (runOp s op) := by
  cases op with
  | register ref u d => exact regInv_setup s ref u d h
  | remove ref => exact regInv_cleanup s ref h
  | bcast p f => exact regInv_broadcast s p f h
  | shut => exact regInv_shutdown s
  | start => exact regInv_svcInit s h
  | handle ref cid verify tok dev => exact regInv_handle s ref cid verify _ h
  | tick ref pf => exact regInv_tick s ref pf h
  | pong ref => exact regInv_pong s ref h
  | closeEvt ref => exact regInv_closeEvt s ref h
  | errEvt ref => exact regInv_errEvt s ref h

theorem regInv_initState : RegInv initState := by
  constructor <;> simp [initState]

theorem regInv_runOps (ops : List Op) : RegInv (runOps ops) := by
  unfold runOps
  have H : ∀ s, RegInv s → RegInv (ops.foldl runOp s) := by
    induction ops with
    | nil =>
        intro s hs
        exact hs
    | cons op rest ih =>
        intro s hs
        rw [List.foldl_cons]
        exact ih _ (regInv_runOp s op hs)
  exact H initState regInv_initState

/-! ### Exact effect of a hit `cleanupConnection` on the registry -/

theorem cleanup_hit_char (s : SysState) (ref u : Nat) (d : String) (obj : ConnObj)
    (h1 : alookup ref s.heap = some obj) (h2 : obj.userId = some u)
    (h3 : obj.deviceId = some d) (h4 : u ≠ 0) (h5 : d ≠ "") (mr : Nat)
    (h6 : alookup u s.outer = some mr)
    (h8 : alookup d ((alookup mr s.maps).getD []) = some ref)
    (hKn : (s.outer.map Prod.fst).Nodup) (hSn : (s.outer.map Prod.snd).Nodup)
    (hIn : (((alookup mr s.maps).getD []).map Prod.fst).Nodup) :
    registryEntries (cleanupConnection s ref)
      = (registryEntries s).filter
          (fun x => !(decide (x.1 = u) && decide (x.2.1 = d))) := by
  have hclean : cleanupConnection s ref =
      (if (aerase d ((alookup mr s.maps).getD [])).isEmpty
        then SysState.mk (aerase u s.outer)
          (aset mr (aerase d ((alookup mr s.maps).getD [])) s.maps)
          s.heap s.wssInit s.nextMapRef
        else SysState.mk s.outer
          (aset mr (aerase d ((alookup mr s.maps).getD [])) s.maps)
          s.heap s.wssInit s.nextMapRef) := by
    unfold cleanupConnection
    rw [h1]
    dsimp only []
    rw [h2, h3]
    dsimp only []
    rw [if_neg h4, if_neg h5, h6]
    dsimp only []
    rw [if_pos h8]
  obtain ⟨P, Q, hPQ, hkP⟩ := alookup_split h6
  have hKn' := hKn
  rw [hPQ, List.map_append, List.map_cons, List.nodup_middle] at hKn'
  have hkPQ : u ∉ P.map Prod.fst ++ Q.map Prod.fst := (List.nodup_cons.1 hKn').1
  have hSn' := hSn
  rw [hPQ, List.map_append, List.map_cons, List.nodup_middle] at hSn'
  have hsPQ : mr ∉ P.map Prod.snd ++ Q.map Prod.snd := (List.nodup_cons.1 hSn').1
  have hbP : blocksM (aset mr (aerase d ((alookup mr s.maps).getD [])) s.maps) P
      = blocksM s.maps P := by
    apply blocksM_congr
    intro p hp
    apply alookup_aset_ne
    intro hpm
    exact hsPQ (List.mem_append.2 (Or.inl (List.mem_map.2 ⟨p, hp, hpm⟩)))
  have hbQ : blocksM (aset mr (aerase d ((alookup mr s.maps).getD [])) s.maps) Q
      = blocksM s.maps Q := by
    apply blocksM_congr
    intro p hp
    apply alookup_aset_ne
    intro hpm
    exact hsPQ (List.mem_append.2 (Or.inr (List.mem_map.2 ⟨p, hp, hpm⟩)))
  have hES : registryEntries s
      = blocksM s.maps P
        ++ (((alookup mr s.maps).getD []).map (fun q => (u, q.1, q.2))
            ++ blocksM s.maps Q) := by
    unfold registryEntries
    rw [hPQ, blocksM_append]
    simp [blocksM]
  have hfP : (blocksM s.maps P).filter
      (fun x => !(decide (x.1 = u) && decide (x.2.1 = d))) = blocksM s.maps P := by
    apply List.filter_eq_self.2
    intro x hx
    obtain ⟨p, hp, q, hq, hx'⟩ := mem_blocksM hx
    subst hx'
    have hpu : p.1 ≠ u := by
      intro hpu
      exact hkPQ (List.mem_append.2 (Or.inl (List.mem_map.2 ⟨p, hp, hpu⟩)))
    simp [hpu]
  have hfQ : (blocksM s.maps Q).filter
      (fun x => !(decide (x.1 = u) && decide (x.2.1 = d))) = blocksM s.maps Q := by
    apply List.filter_eq_self.2
    intro x hx
    obtain ⟨p, hp, q, hq, hx'⟩ := mem_blocksM hx
    subst hx'
    have hpu : p.1 ≠ u := by
      intro hpu
      exact hkPQ (List.mem_append.2 (Or.inr (List.mem_map.2 ⟨p, hp, hpu⟩)))
    simp [hpu]
  have hfMid : (((alookup mr s.maps).getD []).map (fun q => (u, q.1, q.2))).filter
        (fun x => !(decide (x.1 = u) && decide (x.2.1 = d)))
      = (aerase d ((alookup mr s.maps).getD [])).map (fun q => (u, q.1, q.2)) := by
    rw [filter_map_comm]
    rw [aerase_eq_filter d hIn]
    congr 1
    apply List.filter_congr
    intro q hq
    simp
  rw [hclean, hES, List.filter_append, List.filter_append, hfP, hfQ, hfMid]
  by_cases hemp : (aerase d ((alookup mr s.maps).getD [])).isEmpty
  · rw [if_pos hemp]
    have hnil : aerase d ((alookup mr s.maps).getD []) = [] :=
      List.isEmpty_iff.1 hemp
    have houter : aerase u s.outer = P ++ Q := by
      rw [hPQ]
      exact aerase_append mr Q hkP
    unfold registryEntries
    dsimp only []
    rw [houter, blocksM_append, hbP, hbQ, hnil]
    simp
  · rw [if_neg hemp]
    unfold registryEntries
    dsimp only []
    rw [hPQ, blocksM_append]
    have hmid : blocksM (aset mr (aerase d ((alookup mr s.maps).getD [])) s.maps)
        ((u, mr) :: Q)
        = (aerase d ((alookup mr s.maps).getD [])).map (fun q => (u, q.1, q.2))
          ++ blocksM (aset mr (aerase d ((alookup mr s.maps).getD [])) s.maps) Q := by
      simp only [blocksM]
      rw [alookup_aset_self]
      rfl
    rw [hmid, hbP, hbQ]

theorem cleanup_cases (s : SysState) (ref : Nat) :
    cleanupConnection s ref = s ∨
    ∃ obj u d mr, alookup ref s.heap = some obj ∧ obj.userId = some u ∧
      obj.deviceId = some d ∧ u ≠ 0 ∧ d ≠ "" ∧ alookup u s.outer = some mr ∧
      alookup d ((alookup mr s.maps).getD []) = some ref := by
  cases h1 : alookup ref s.heap with
  | none =>
      left
      unfold cleanupConnection
      rw [h1]
  | some obj =>
      cases h2 : obj.userId with
      | none =>
          left
          unfold cleanupConnection
          rw [h1]
          dsimp only []
          rw [h2]
      | some u =>
          cases h3 : obj.deviceId with
          | none =>
              left
              unfold cleanupConnection
              rw [h1]
              dsimp only []
              rw [h2, h3]
          | some d =>
              by_cases h4 : u = 0
              · left
                unfold cleanupConnection
                rw [h1]
                dsimp only []
                rw [h2, h3]
                dsimp only []
                rw [if_pos h4]
              · by_cases h5 : d = ""
                · left
                  unfold cleanupConnection
                  rw [h1]
                  dsimp only []
                  rw [h2, h3]
                  dsimp only []
                  rw [if_neg h4, if_pos h5]
                · cases h6 : alookup u s.outer with
                  | none =>
                      left
                      unfold cleanupConnection
                      rw [h1]
                      dsimp only []
                      rw [h2, h3]
                      dsimp only []
                      rw [if_neg h4, if_neg h5, h6]
                  | some mr =>
                      by_cases h8 : alookup d ((alookup mr s.maps).getD []) = some ref
                      · right
                        exact ⟨obj, u, d, mr, rfl, h2, h3, h4, h5, h6, h8⟩
                      · left
                        unfold cleanupConnection
                        rw [h1]
                        dsimp only []
                        rw [h2, h3]
                        dsimp only []
                        rw [if_neg h4, if_neg h5, h6]
                        dsimp only []
                        rw [if_neg h8]

theorem inner_nodup_of_hit (s : SysState) (mr : Nat)
    (hMn : ∀ p ∈ s.maps, (p.2.map Prod.fst).Nodup) :
    (((alookup mr s.maps).getD []).map Prod.fst).Nodup := by
  cases hin : alookup mr s.maps with
  | none => simp
  | some inner =>
      simp only [Option.getD_some]
      exact hMn (mr, inner) (alookup_mem hin)

theorem cleanup_entries_sublist (s : SysState) (ref : Nat)
    (hKn : (s.outer.map Prod.fst).Nodup) (hSn : (s.outer.map Prod.snd).Nodup)
    (hMn : ∀ p ∈ s.maps, (p.2.map Prod.fst).Nodup) :
    List.Sublist (registryEntries (cleanupConnection s ref)) (registryEntries s) := by
  rcases cleanup_cases s ref with h | ⟨obj, u, d, mr, h1, h2, h3, h4, h5, h6, h8⟩
  · rw [h]
  · rw [cleanup_hit_char s ref u d obj h1 h2 h3 h4 h5 mr h6 h8 hKn hSn
      (inner_nodup_of_hit s mr hMn)]
    exact List.filter_sublist _

theorem cleanup_outer_sublist (s : SysState) (ref : Nat) :
    List.Sublist (cleanupConnection s ref).outer s.outer := by
  unfold cleanupConnection
  dsimp only []
  repeat' split
  all_goals first
    | exact List.Sublist.refl _
    | exact aerase_sublist _ _

theorem wf_maps_cleanup (s : SysState) (ref : Nat)
    (hMn : ∀ p ∈ s.maps, (p.2.map Prod.fst).Nodup) :
    ∀ p ∈ (cleanupConnection s ref).maps, (p.2.map Prod.fst).Nodup := by
  unfold cleanupConnection
  dsimp only []
  repeat' split
  all_goals try exact hMn
  all_goals
    intro p hp
    rcases mem_aset hp with hpe | hpm
    · rw [hpe]
      exact ((aerase_sublist _ _).map Prod.fst).nodup (inner_nodup_of_hit s _ hMn)
    · exact hMn p hpm

theorem wf_cleanup (s : SysState) (ref : Nat) (h : StateWF s) :
    StateWF (cleanupConnection s ref) := by
  obtain ⟨hKn, hSn, hMn, hCo, hSl⟩ := h
  have hsub := cleanup_entries_sublist s ref hKn hSn hMn
  refine ⟨?_, ?_, ?_, ?_, ?_⟩
  · exact ((cleanup_outer_sublist s ref).map Prod.fst).nodup hKn
  · exact ((cleanup_outer_sublist s ref).map Prod.snd).nodup hSn
  · exact wf_maps_cleanup s ref hMn
  · intro e he
    have he' : e ∈ registryEntries s := hsub.mem he
    rw [getObj_heap_congr (cleanupConnection_heap s ref)]
    exact hCo e he'
  · exact (hsub.map _).nodup hSl

theorem connObj_default_userId : (default : ConnObj).userId = none := rfl

theorem lookup_heap_of_entry (s : SysState) (ref : Nat) {u : Nat}
    (h : (getObj s ref).userId = some u) :
    alookup ref s.heap = some (getObj s ref) := by
  cases hh : alookup ref s.heap with
  | none =>
      exfalso
      simp only [getObj, hh, Option.getD_none] at h
      rw [connObj_default_userId] at h
      exact Option.noConfusion h
  | some o => simp [getObj, hh]

theorem mem_entries_lookup (s : SysState) (e : Nat × String × Nat)
    (hKn : (s.outer.map Prod.fst).Nodup)
    (hMn : ∀ p ∈ s.maps, (p.2.map Prod.fst).Nodup)
    (he : e ∈ registryEntries s) :
    ∃ mr, alookup e.1 s.outer = some mr ∧
      alookup e.2.1 ((alookup mr s.maps).getD []) = some e.2.2 := by
  obtain ⟨p, hp, q, hq, he'⟩ := mem_blocksM he
  subst he'
  refine ⟨p.2, ?_, ?_⟩
  · have hpm : (p.1, p.2) ∈ s.outer := by
      cases p
      exact hp
    exact alookup_of_mem_nodup hpm hKn
  · cases hin : alookup p.2 s.maps with
    | none =>
        rw [hin] at hq
        simp at hq
    | some inner =>
        rw [hin] at hq
        simp only [Option.getD_some] at hq
        simp only [Option.getD_some]
        have hn := hMn (p.2, inner) (alookup_mem hin)
        have hqm : (q.1, q.2) ∈ inner := by
          cases q
          exact hq
        exact alookup_of_mem_nodup hqm hn

theorem evict_bookkeeping (st : SysState) (e : Nat × String × Nat)
    (done rest : List (Nat × String × Nat)) (hwf : StateWF st)
    (hre : registryEntries st = done ++ e :: rest) :
    registryEntries (cleanupConnection st e.2.2) = done ++ rest
    ∧ StateWF (cleanupConnection st e.2.2) := by
  obtain ⟨hKn, hSn, hMn, hCo, hSl⟩ := hwf
  have he : e ∈ registryEntries st := by
    rw [hre]
    exact List.mem_append.2 (Or.inr (List.mem_cons_self _ _))
  obtain ⟨hu, hd, h0, hde⟩ := hCo e he
  have h1 : alookup e.2.2 st.heap = some (getObj st e.2.2) :=
    lookup_heap_of_entry st e.2.2 hu
  obtain ⟨mr, hm1, hm2⟩ := mem_entries_lookup st e hKn hMn he
  have hchar := cleanup_hit_char st e.2.2 e.1 e.2.1 (getObj st e.2.2)
    h1 hu hd h0 hde mr hm1 hm2 hKn hSn (inner_nodup_of_hit st mr hMn)
  constructor
  · rw [hchar, hre]
    have hSl' := hSl
    rw [hre, List.map_append, List.map_cons, List.nodup_middle] at hSl'
    have hmid : (e.1, e.2.1) ∉ done.map (fun x => (x.1, x.2.1))
        ++ rest.map (fun x => (x.1, x.2.1)) := (List.nodup_cons.1 hSl').1
    rw [List.filter_append]
    have hfd : done.filter
        (fun x => !(decide (x.1 = e.1) && decide (x.2.1 = e.2.1))) = done := by
      apply List.filter_eq_self.2
      intro x hx
      have hne : ¬(x.1 = e.1 ∧ x.2.1 = e.2.1) := by
        intro hand
        apply hmid
        exact List.mem_append.2 (Or.inl
          (List.mem_map.2 ⟨x, hx, by rw [hand.1, hand.2]⟩))
      by_cases hA : x.1 = e.1
      · by_cases hB : x.2.1 = e.2.1
        · exact absurd ⟨hA, hB⟩ hne
        · simp [hA, hB]
      · simp [hA]
    have hfr : rest.filter
        (fun x => !(decide (x.1 = e.1) && decide (x.2.1 = e.2.1))) = rest := by
      apply List.filter_eq_self.2
      intro x hx
      have hne : ¬(x.1 = e.1 ∧ x.2.1 = e.2.1) := by
        intro hand
        apply hmid
        exact List.mem_append.2 (Or.inr
          (List.mem_map.2 ⟨x, hx, by rw [hand.1, hand.2]⟩))
      by_cases hA : x.1 = e.1
      · by_cases hB : x.2.1 = e.2.1
        · exact absurd ⟨hA, hB⟩ hne
        · simp [hA, hB]
      · simp [hA]
    rw [hfd, List.filter_cons]
    rw [show (!(decide (e.1 = e.1) && decide (e.2.1 = e.2.1))) = false by simp]
    rw [if_neg Bool.false_ne_true, hfr]
  · exact wf_cleanup st e.2.2 ⟨hKn, hSn, hMn, hCo, hSl⟩

theorem broadcastFold_char (payload : String) (f : Nat → Bool)
    (H : List (Nat × ConnObj)) (l : List (Nat × String × Nat)) :
    ∀ (done : List (Nat × String × Nat)) (st : SysState) (effs : List Effect),
      st.heap = H → StateWF st → registryEntries st = done ++ l →
      (l.foldl (broadcastStep payload f) (st, effs)).1.heap = H
      ∧ StateWF (l.foldl (broadcastStep payload f) (st, effs)).1
      ∧ registryEntries (l.foldl (broadcastStep payload f) (st, effs)).1
          = done ++ l.filter (keepB H f)
      ∧ (l.foldl (broadcastStep payload f) (st, effs)).2
          = effs ++ (l.filter (keepB H f)).map (fun e => Effect.send e.2.2 payload) := by
  induction l with
  | nil =>
      intro done st effs hH hwf hre
      refine ⟨hH, hwf, ?_, ?_⟩
      · simpa using hre
      · simp
  | cons e rest ih =>
      intro done st effs hH hwf hre
      rw [List.foldl_cons]
      have hgo : getObj st e.2.2 = (alookup e.2.2 H).getD default := by
        rw [← hH]
        rfl
      by_cases hOpen : (getObj st e.2.2).readyState = OPEN
      · by_cases hFail : f e.2.2 = true
        · have hkeep : keepB H f e = false := by
            unfold keepB
            rw [← hgo]
            simp [hFail]
          have hstep : broadcastStep payload f (st, effs) e
              = (cleanupConnection st e.2.2, effs) := by
            unfold broadcastStep
            rw [if_pos hOpen, if_pos hFail]
          rw [hstep]
          obtain ⟨hre', hwf'⟩ := evict_bookkeeping st e done rest
            ⟨hwf.1, hwf.2.1, hwf.2.2.1, hwf.2.2.2.1, hwf.2.2.2.2⟩ hre
          have ihres := ih done (cleanupConnection st e.2.2) effs
            (by rw [cleanupConnection_heap]; exact hH) hwf' hre'
          refine ⟨ihres.1, ihres.2.1, ?_, ?_⟩
          · rw [ihres.2.2.1, List.filter_cons, hkeep]
            simp
          · rw [ihres.2.2.2, List.filter_cons, hkeep]
            simp
        · have hkeep : keepB H f e = true := by
            unfold keepB
            rw [← hgo]
            simp [hOpen, hFail]
          have hstep : broadcastStep payload f (st, effs) e
              = (st, effs ++ [Effect.send e.2.2 payload]) := by
            unfold broadcastStep
            rw [if_pos hOpen, if_neg hFail]
          rw [hstep]
          have hre2 : registryEntries st = (done ++ [e]) ++ rest := by
            rw [hre]
            simp
          have ihres := ih (done ++ [e]) st (effs ++ [Effect.send e.2.2 payload])
            hH hwf hre2
          refine ⟨ihres.1, ihres.2.1, ?_, ?_⟩
          · rw [ihres.2.2.1, List.filter_cons, hkeep]
            simp
          · rw [ihres.2.2.2, List.filter_cons, hkeep]
            simp
      · have hkeep : keepB H f e = false := by
          unfold keepB
          rw [← hgo]
          simp [hOpen]
        have hstep : broadcastStep payload f (st, effs) e
            = (cleanupConnection st e.2.2, effs) := by
          unfold broadcastStep
          rw [if_neg hOpen]
        rw [hstep]
        obtain ⟨hre', hwf'⟩ := evict_bookkeeping st e done rest
          ⟨hwf.1, hwf.2.1, hwf.2.2.1, hwf.2.2.2.1, hwf.2.2.2.2⟩ hre
        have ihres := ih done (cleanupConnection st e.2.2) effs
          (by rw [cleanupConnection_heap]; exact hH) hwf' hre'
        refine ⟨ihres.1, ihres.2.1, ?_, ?_⟩
        · rw [ihres.2.2.1, List.filter_cons, hkeep]
          simp
        · rw [ihres.2.2.2, List.filter_cons, hkeep]
          simp

/-! ### Claim C4 -/

/-- Claim C4: on an initialized, well-formed registry, `broadcast` sends the
one serialized payload — `JSON.stringify(message)`, identical on every
iteration — to exactly the registered Connections whose transport state is
`OPEN` and whose send does not fail (in registry order); every registered
Connection that is not `OPEN` is evicted with no send attempt, a failing
Connection is evicted while delivery to all remaining Connections still
proceeds (the surviving entries are exactly the open, non-failing ones, in
order), and the connection objects themselves are untouched. -/
theorem c4_broadcast (s : SysState) (payload : String) (sendFails : Nat → Bool)
    (hw : s.wssInit = true) (hwf : StateWF s) :
    (broadcast s payload sendFails).2
      = ((registryEntries s).filter (keepB s.heap sendFails)).map
          (fun e => Effect.send e.2.2 payload)
    ∧ registryEntries (broadcast s payload sendFails).1
        = (registryEntries s).filter (keepB s.heap sendFails)
    ∧ (broadcast s payload sendFails).1.heap = s.heap := by
  unfold broadcast
  rw [if_pos hw]
  have h := broadcastFold_char payload sendFails s.heap (registryEntries s)
    [] s [] rfl hwf (by simp)
  exact ⟨h.2.2.2, h.2.2.1, h.1⟩

/-- Witness for C4: three registered sockets — 1 open and deliverable,
2 open but failing, 3 closed — under a broadcast of `"m"`. -/
theorem c4_broadcast_witness :
    (broadcast cs4 "m" (fun r => r == 2)).2
      = ((registryEntries cs4).filter (keepB cs4.heap (fun r => r == 2))).map
          (fun e => Effect.send e.2.2 "m")
    ∧ registryEntries (broadcast cs4 "m" (fun r => r == 2)).1
        = (registryEntries cs4).filter (keepB cs4.heap (fun r => r == 2))
    ∧ (broadcast cs4 "m" (fun r => r == 2)).1.heap = cs4.heap :=
  c4_broadcast cs4 "m" (fun r => r == 2) rfl (by decide)

/-! ### Claim C5 -/

/-- Claim C5: a registered Connection whose `isAlive` flag is still false
when its heartbeat tick fires is forcibly terminated — `ws.terminate()`, an
abnormal close, not a graceful `close` — its interval is cleared, and the
close event's `cleanupConnection` evicts it from the registry, so no
registered entry refers to it any more (it is gone from `getStats`). -/
theorem c5_heartbeat_timeout (s : SysState) (ref : Nat) (pf : Bool)
    (hwf : StateWF s) (hocc : isCurrentOccupant s ref = true)
    (hdead : (getObj s ref).isAlive.getD false = false) :
    (heartbeatTick s ref pf).2 = [Effect.terminate ref]
    ∧ (getObj (heartbeatTick s ref pf).1 ref).timerActive = false
    ∧ (getObj (heartbeatTick s ref pf).1 ref).readyState = CLOSED
    ∧ ∀ e ∈ registryEntries (heartbeatTick s ref pf).1, e.2.2 ≠ ref := by
  obtain ⟨hKn, hSn, hMn, hCo, hSl⟩ := hwf
  unfold isCurrentOccupant at hocc
  unfold heartbeatTick
  dsimp only []
  rw [if_pos hdead]
  dsimp only []
  refine ⟨rfl, ?_, ?_, ?_⟩
  · rw [getObj_heap_congr (cleanupConnection_heap _ _)]
    simp [getObj, alookup_aset_self]
  · rw [getObj_heap_congr (cleanupConnection_heap _ _)]
    simp [getObj, alookup_aset_self]
  · split at hocc
    · exact absurd hocc (by simp)
    · rename_i obj hlook
      split at hocc
      · rename_i u d hu hd
        by_cases h0 : u = 0
        · rw [if_pos h0] at hocc
          exact absurd hocc (by simp)
        · rw [if_neg h0] at hocc
          by_cases hde : d = ""
          · rw [if_pos hde] at hocc
            exact absurd hocc (by simp)
          · rw [if_neg hde] at hocc
            split at hocc
            · exact absurd hocc (by simp)
            · rename_i mr houter
              have hhit : alookup d ((alookup mr s.maps).getD []) = some ref :=
                of_decide_eq_true hocc
              have hgobj : getObj s ref = obj := by
                simp [getObj, hlook]
              set obj1 : ConnObj := { getObj s ref with timerActive := false, readyState := CLOSED } with hobj1
              set s1 : SysState := SysState.mk s.outer s.maps (aset ref obj1 s.heap) s.wssInit s.nextMapRef with hs1
              have hchar := cleanup_hit_char s1 ref u d obj1
                (alookup_aset_self _ _ _)
                (by rw [hobj1]; show (getObj s ref).userId = some u; rw [hgobj]; exact hu)
                (by rw [hobj1]; show (getObj s ref).deviceId = some d; rw [hgobj]; exact hd)
                h0 hde mr houter hhit hKn hSn (inner_nodup_of_hit s mr hMn)
              intro e he
              rw [hchar] at he
              have he' := List.mem_filter.1 he
              have hentries : registryEntries s1 = registryEntries s := rfl
              rw [hentries] at he'
              intro heref
              obtain ⟨hcu, hcd, hc0, hcde⟩ := hCo e he'.1
              rw [heref, hgobj] at hcu hcd
              rw [hu] at hcu
              rw [hd] at hcd
              have heu : e.1 = u := Option.some.inj hcu.symm
              have hed : e.2.1 = d := Option.some.inj hcd.symm
              have hp := he'.2
              try dsimp only [] at hp
              rw [heu, hed] at hp
              simp at hp
      · exact absurd hocc (by simp)

/-- Witness for C5: the one registered socket of `cs5` has not answered its
ping; the tick terminates and evicts it. -/
theorem c5_heartbeat_timeout_witness :
    (heartbeatTick cs5 1 false).2 = [Effect.terminate 1]
    ∧ (getObj (heartbeatTick cs5 1 false).1 1).timerActive = false
    ∧ (getObj (heartbeatTick cs5 1 false).1 1).readyState = CLOSED
    ∧ ∀ e ∈ registryEntries (heartbeatTick cs5 1 false).1, e.2.2 ≠ 1 :=
  c5_heartbeat_timeout cs5 1 false (by decide) (by decide) (by decide)

/-! ### Claim C2 -/

/-- Claim C2: at every observable point after any sequence of operations
from the initial state — register (`setupConnection`, also via
`handleConnection`), remove (`cleanupConnection`, also via the close / error
listeners and heartbeat ticks), broadcast, shutdown and re-initialization —
a `userId` key present in the outer connections mapping always maps to a
non-empty inner device mapping: removing the last device prunes the user's
outer entry immediately, and no outer entry ever maps to an empty inner
map.  (The converse direction of the claim's "if and only if" holds by
construction: a user without an outer entry has no inner mapping in the
registry at all.) -/
theorem c2_pruning_invariant (ops : List Op) (u mr : Nat)
    (hu : alookup u (runOps ops).outer = some mr) :
    (alookup mr (runOps ops).maps).getD [] ≠ [] :=
  (regInv_runOps ops).nonempty (u, mr) (alookup_mem hu)

/-- Witness for C2 at a one-registration operation sequence. -/
theorem c2_pruning_invariant_witness :
    alookup 7 (runOps [Op.register 1 7 "phone"]).outer = some 0
    ∧ (alookup 0 (runOps [Op.register 1 7 "phone"]).maps).getD [] ≠ [] :=
  ⟨by decide, c2_pruning_invariant [Op.register 1 7 "phone"] 7 0 (by decide)⟩

/-! ### Claim C9 -/

/-- Counterexample to claim C9: a handshake with no token at all is closed
with status 1008 but with reason "Authentication failed" — the
`WebSocketService` never emits the claim's "Token required" string. -/
theorem c9_reason_counterexample :
    (handleConnection cs9 1 "a" verifyTok { token := none, deviceId := none }).2
      = [Effect.close 1 1008 "Authentication failed"]
    ∧ "Authentication failed" ≠ "Token required" :=
  ⟨by decide, by decide⟩

/-- Claim C9 as amended: every failed handshake — token absent, malformed,
or failing verification — is closed with policy-violation status 1008 and
the single reason string "Authentication failed", and the connection is
never admitted: the registered entries are unchanged, so it appears in no
broadcast iteration and no stats output. -/
theorem c9_amended (s : SysState) (ref : Nat) (cid : String)
    (verify : String → Option Nat) (hs : Handshake)
    (hfail : (authenticateConnection verify hs).1 = none) :
    (handleConnection s ref cid verify hs).2
      = [Effect.close ref 1008 "Authentication failed"]
    ∧ registryEntries (handleConnection s ref cid verify hs).1 = registryEntries s := by
  unfold handleConnection
  cases hA : authenticateConnection verify hs with
  | mk a b =>
      rw [hA] at hfail
      cases a with
      | some u => simp at hfail
      | none =>
          dsimp only []
          cases b with
          | none =>
              refine ⟨rfl, ?_⟩
              exact registryEntries_congr (closeConn_outer _ _) (closeConn_maps _ _)
          | some d =>
              refine ⟨rfl, ?_⟩
              exact registryEntries_congr (closeConn_outer _ _) (closeConn_maps _ _)

/-- Witness for C9 as amended: a malformed token is rejected with 1008 and
"Authentication failed" and nothing is registered. -/
theorem c9_amended_witness :
    (handleConnection cs9 1 "a" verifyTok { token := some "bad", deviceId := some "x" }).2
      = [Effect.close 1 1008 "Authentication failed"]
    ∧ registryEntries (handleConnection cs9 1 "a" verifyTok
        { token := some "bad", deviceId := some "x" }).1 = registryEntries cs9 :=
  c9_amended cs9 1 "a" verifyTok { token := some "bad", deviceId := some "x" } (by decide)

/-! ### Claim C10 -/

/-- Counterexample to claim C10: the diagnostic object has no field named
`userCount` — the user-count field of the source's object literal is named
`users`. -/
theorem c10_field_name_counterexample :
    alookup "userCount" (getStats cs10) = none
    ∧ alookup "users" (getStats cs10) = some (JVal.num 1) :=
  ⟨rfl, rfl⟩

/-- Claim C10 as amended: `getStats` returns an object whose two fields are
named `users` — not `userCount` — and `connections`.  Under the registry
invariant the `users` value counts the distinct users having at least one
registered Connection (a user key exists exactly when such a Connection
does), and `connections` holds one `{userId, deviceId, connectionId,
isAlive}` entry per registered Connection. -/
theorem c10_amended (s : SysState) (hinv : RegInv s) :
    (getStats s).map Prod.fst = ["users", "connections"]
    ∧ alookup "users" (getStats s) = some (JVal.num s.outer.length)
    ∧ (s.outer.map Prod.fst).Nodup
    ∧ (∀ u, u ∈ s.outer.map Prod.fst ↔ ∃ e ∈ registryEntries s, e.1 = u)
    ∧ alookup "connections" (getStats s)
        = some (JVal.arr ((registryEntries s).map (fun e =>
            JVal.obj [("userId", JVal.num e.1), ("deviceId", JVal.str e.2.1),
                      ("connectionId", JVal.str (getObj s e.2.2).connectionId),
                      ("isAlive", JVal.bool ((getObj s e.2.2).isAlive.getD false))]))) := by
  refine ⟨rfl, rfl, hinv.keys_nodup, ?_, rfl⟩
  intro u
  constructor
  · intro hu
    obtain ⟨p, hp, hpu⟩ := List.mem_map.1 hu
    have hne := hinv.nonempty p hp
    obtain ⟨q, hq⟩ := List.exists_mem_of_ne_nil _ hne
    exact ⟨(p.1, q.1, q.2), blocksM_mem_of hp hq, hpu ▸ rfl⟩
  · intro ⟨e, he, heu⟩
    obtain ⟨p, hp, q, hq, he'⟩ := mem_blocksM he
    subst he'
    exact heu ▸ List.mem_map.2 ⟨p, hp, rfl⟩

/-- Witness for C10 as amended, at a state with one registered socket. -/
theorem c10_amended_witness :
    (getStats cs10).map Prod.fst = ["users", "connections"]
    ∧ alookup "users" (getStats cs10) = some (JVal.num cs10.outer.length) :=
  ⟨(c10_amended cs10 ⟨by decide, by decide, by decide, by decide⟩).1,
   (c10_amended cs10 ⟨by decide, by decide, by decide, by decide⟩).2.1⟩

/-! ### Claim C8 -/

/-- Counterexample to claim C8: after `shutdown()` the registry is empty
and `this.wss` is null, but an incoming connection event with a valid token
is still admitted — `handleConnection` performs no shut-down check — so the
registry does not remain empty under incoming connection events in the
shut-down state. -/
theorem c8_admits_after_shutdown_counterexample :
    (shutdown cs8).1.wssInit = false
    ∧ registryEntries (shutdown cs8).1 = []
    ∧ registryEntries (handleConnection (shutdown cs8).1 2 "b" verifyTok
        { token := some "tok", deviceId := some "phone" }).1 = [(7, "phone", 2)] :=
  ⟨by decide, by decide, by decide⟩

theorem auth_success_deviceId (verify : String → Option Nat) (hs : Handshake)
    {u : Nat} {d : String}
    (h : authenticateConnection verify hs = (some u, some d)) : d ≠ "" := by
  unfold authenticateConnection at h
  cases ht : hs.token with
  | none =>
      rw [ht] at h
      simp at h
  | some t =>
      rw [ht] at h
      dsimp only [] at h
      cases hv : verify t with
      | none =>
          rw [hv] at h
          simp at h
      | some uid =>
          rw [hv] at h
          try dsimp only [] at h
          have hd : (match hs.deviceId with
              | some raw => if raw = "" then "default" else raw
              | none => "default") = d := congrArg (fun p => (p.2.getD "")) h
          cases hdev : hs.deviceId with
          | none =>
              rw [hdev] at hd
              dsimp only [] at hd
              rw [← hd]
              decide
          | some raw =>
              rw [hdev] at hd
              dsimp only [] at hd
              by_cases hraw : raw = ""
              · rw [if_pos hraw] at hd
                rw [← hd]
                decide
              · rw [if_neg hraw] at hd
                rw [← hd]
                exact hraw

/-- Claim C8 as amended: after `shutdown()` only the broadcast path is
refused (`this.wss` is null, so `broadcast` is a reported no-op); incoming
connection events are still processed unchanged, and a connection arriving
in the shut-down (empty-registry) state whose token verifies to a truthy
`userId` (non-zero — zero is rejected by the handler's falsy guard like any
auth failure) is admitted to the registry as usual. -/
theorem c8_amended (s : SysState) (ref : Nat) (cid : String)
    (verify : String → Option Nat) (hs : Handshake) (u : Nat) (d : String)
    (hshut : s.wssInit = false) (houter : s.outer = [])
    (hauth : authenticateConnection verify hs = (some u, some d))
    (h0 : u ≠ 0) :
    (∀ payload sendFails, broadcast s payload sendFails = (s, []))
    ∧ registryEntries (handleConnection s ref cid verify hs).1 = [(u, d, ref)] := by
  constructor
  · intro payload sendFails
    simp [broadcast, hshut]
  · unfold handleConnection
    rw [hauth]
    dsimp only []
    rw [if_neg h0, if_neg (auth_success_deviceId verify hs hauth)]
    exact setup_on_empty_outer _ ref u d houter

/-- Witness for C8 as amended: shutting down the one-connection state and
then handling a valid-token connection event registers it. -/
theorem c8_amended_witness :
    (∀ payload sendFails,
        broadcast (shutdown cs8).1 payload sendFails = ((shutdown cs8).1, []))
    ∧ registryEntries (handleConnection (shutdown cs8).1 3 "c" verifyTok
        { token := some "tok", deviceId := some "tablet" }).1 = [(7, "tablet", 3)] :=
  c8_amended (shutdown cs8).1 3 "c" verifyTok
    { token := some "tok", deviceId := some "tablet" } 7 "tablet"
    (by decide) (by decide) (by decide) (by decide)

/-! ### Claim C6 -/

/-- Counterexample to claim C6: after socket 1 is evicted from the registry
by a failed send during a broadcast, its heartbeat interval is still
scheduled, and its next tick still fires against the evicted socket
(emitting a ping frame): eviction does not cancel the heartbeat task. -/
theorem c6_orphan_timer_counterexample :
    registryEntries cs6evicted = []
    ∧ (getObj cs6evicted 1).timerActive = true
    ∧ (heartbeatTick cs6evicted 1 false).2 = [Effect.ping 1] :=
  ⟨by decide, by decide, by decide⟩

/-- Claim C6 as amended: eviction never cancels the heartbeat interval —
`cleanupConnection` and `shutdown` both leave `timerActive` unchanged — and
the orphaned loop self-terminates only from inside its own callback: with
no intervening pong, after at most two further ticks the interval has
cleared itself (the first tick either finds the flag false, clears, and
terminates the socket, or clears the flag / aborts on a ping error; the
second then finds the flag false and clears). -/
theorem c6_amended (s : SysState) (ref : Nat) (pf pf' : Bool) :
    (getObj (cleanupConnection s ref) ref).timerActive = (getObj s ref).timerActive
    ∧ (getObj (shutdown s).1 ref).timerActive = (getObj s ref).timerActive
    ∧ (getObj (heartbeatTick (heartbeatTick s ref pf).1 ref pf').1 ref).timerActive
        = false := by
  refine ⟨?_, ?_, ?_⟩
  · rw [getObj_heap_congr (cleanupConnection_heap _ _)]
  · exact foldl_closeConn_timerActive _ s ref
  · exact heartbeatTick_clears _ ref pf' (heartbeatTick_obj s ref pf)

end WS
